import Mathlib

/-!
Store backends of `libstore`: local-filesystem, SSH and mounted-SSH stores.

A shallow embedding of `src/libstore/local-fs-store.hh` and
`src/libstore/ssh-store.cc`.

* `std::string` / `Path` values are Lean `String`s, one `Char` for each `char`
  of the C++ string; the C++ string operations used by the sources (`+`,
  `size()`, the substring constructor `std::string(s, pos)`) are written on the
  underlying character lists.
* A failed `assert`, a thrown `Unsupported` and a failed system call are the
  constructors of `Error`; fallible code returns `Except Error _`.
* Code with side effects takes and returns the object it mutates and a `World`
  (descriptor table, spawned processes, protocol round-trips, local files).
-/

namespace Nix

/-- The `Path` type of `types.hh`: a `std::string`. -/
abbrev Path := String

/-- A store path, printed (`printStorePath`): opaque to this development. -/
abbrev StorePath := String

/-- What stops an operation: the `Unsupported` exception raised by
`Store::unsupported`, a failed `assert`, `std::out_of_range` from the substring
constructor, and `SysError` from a failed system call. -/
inductive Error where
  | unsupported (op : String) (uri : String)
  | assertionFailed (what : String)
  | outOfRange
  | sysError (what : String)
  deriving DecidableEq, Repr

deriving instance DecidableEq for Except

/-! ## Strings -/

/-- The substring constructor `std::string(s, pos)`: the characters of `s` from
index `pos` on; `std::out_of_range` when `pos > s.size()`. -/
def substrFrom (s : String) (pos : Nat) : Except Error String :=
  if pos ≤ s.length then .ok ⟨s.data.drop pos⟩ else .error .outOfRange

/-! ## `LocalFSStoreConfig` -/

/-- The two process-wide defaults of `globals.hh` read by `LocalFSStoreConfig`. -/
structure Settings where
  nixStateDir : Path
  nixLogDir : Path
  deriving DecidableEq, Repr

/-- The values that `Params` carries for the settings declared in the
sources, one field per key (`root`, `state`, `log`, `real`, `ssh-key`,
`base64-ssh-public-host-key`, `compress`, `remote-program`, `remote-store`):
`none` when the key is not set. -/
structure Params where
  root : Option Path := none
  state : Option Path := none
  log : Option Path := none
  real : Option Path := none
  sshKey : Option Path := none
  sshPublicHostKey : Option String := none
  compress : Option Bool := none
  remoteProgram : Option Path := none
  remoteStore : Option String := none
  deriving DecidableEq, Repr

/-- Value of a `Setting<T>` after construction: the default given to the
constructor, unless `Params` sets the key. -/
def setting {α : Type} (dflt : α) (override : Option α) : α :=
  override.getD dflt

/-- Value of a `PathSetting` after construction: as for `Setting<Path>`. -/
def pathSetting (dflt : Path) (override : Option Path) : Path :=
  setting dflt override

/-- Default of `stateDir` (local-fs-store.hh:23). -/
def defaultStateDir (settings : Settings) (rootDir : Path) : Path :=
  if rootDir ≠ "" then rootDir ++ "/nix/var/nix" else settings.nixStateDir

/-- Default of `logDir` (local-fs-store.hh:28). -/
def defaultLogDir (settings : Settings) (rootDir : Path) : Path :=
  if rootDir ≠ "" then rootDir ++ "/nix/var/log/nix" else settings.nixLogDir

/-- Default of `realStoreDir` (local-fs-store.hh:33). -/
def defaultRealStoreDir (storeDir : Path) (rootDir : Path) : Path :=
  if rootDir ≠ "" then rootDir ++ "/nix/store" else storeDir

/-- The fields of `LocalFSStoreConfig`, with the `storeDir` it inherits from
`StoreConfig`. -/
structure LocalFSStoreConfig where
  storeDir : Path
  rootDir : Path
  stateDir : Path
  logDir : Path
  realStoreDir : Path
  deriving DecidableEq, Repr

/-- Construction of a `LocalFSStoreConfig`: the member initialisers of
local-fs-store.hh:18-34 in declaration order, each default computed from the
already constructed `rootDir`. -/
def LocalFSStoreConfig.new (settings : Settings) (storeDir : Path) (params : Params) :
    LocalFSStoreConfig :=
  let rootDir := pathSetting "" params.root
  { storeDir := storeDir
    rootDir := rootDir
    stateDir := pathSetting (defaultStateDir settings rootDir) params.state
    logDir := pathSetting (defaultLogDir settings rootDir) params.log
    realStoreDir := pathSetting (defaultRealStoreDir storeDir rootDir) params.real }

/-! ## `LocalFSStore::toRealPath` -/

/-- Modelled from the spec: `Store::isInStore` (declared in store-api.hh, its
body is not among the sources). A path is within the logical store namespace
when it is the store directory, then `/`, then a non-empty store-relative
suffix. -/
def isInStore (storeDir : Path) (path : Path) : Bool :=
  decide (path.data.take storeDir.length = storeDir.data)
    && decide (storeDir.length + 2 ≤ path.length)
    && decide (path.data.get? storeDir.length = some '/')

/-- A `LocalFSStore` object: in this development its state is the
configuration it inherits from `LocalFSStoreConfig`. -/
abbrev LocalFSStore := LocalFSStoreConfig

/-- The method `LocalFSStore::getRealStoreDir` (local-fs-store.hh:68). -/
def LocalFSStore.getRealStoreDir (self : LocalFSStore) : Path :=
  self.realStoreDir

/-- The method `LocalFSStore::toRealPath` (local-fs-store.hh:70-74). -/
def LocalFSStore.toRealPath (self : LocalFSStore) (storePath : Path) :
    Except Error Path :=
  if isInStore self.storeDir storePath then
    match substrFrom storePath (self.storeDir.length + 1) with
    | .ok rest => .ok (LocalFSStore.getRealStoreDir self ++ "/" ++ rest)
    | .error e => .error e
  else
    .error (.assertionFailed "isInStore(storePath)")

/-- The inverse mapping in the spec's words: replace the leading real store
directory of a real path by the logical store directory; nothing when the path
does not start with the real store directory. -/
def fromRealPath (self : LocalFSStore) (realPath : Path) : Option Path :=
  if (LocalFSStore.getRealStoreDir self).data.isPrefixOf realPath.data then
    some (self.storeDir ++ ⟨realPath.data.drop (LocalFSStore.getRealStoreDir self).length⟩)
  else
    none

/-! ## The client process and what surrounds it -/

/-- The descriptor owner `AutoCloseFD` (util.hh): the descriptor number, `-1`
when it owns none. -/
structure AutoCloseFD where
  fd : Int
  deriving DecidableEq, Repr

/-- The accessor `AutoCloseFD::get`. -/
def AutoCloseFD.get (self : AutoCloseFD) : Int :=
  self.fd

/-- One remote command started through `ssh`: the host, the command line run
there, and the master process whose control socket it goes through, if any. -/
structure SpawnedCommand where
  host : String
  command : String
  controlMaster : Option Nat
  deriving DecidableEq, Repr

/-- What the operations here act on outside the store object: the descriptors
open in the client process, the `ssh` master processes and remote commands
started so far, the worker-protocol requests the daemon has answered and the
answer it gives to each, and the symlinks and files of the local filesystem. -/
structure World where
  openFds : List Int := []
  masters : List String := []
  spawned : List SpawnedCommand := []
  roundTrips : List (String × List String) := []
  daemon : String → List String → String := fun _ _ => ""
  symlinks : List (Path × Path) := []
  files : List (Path × String) := []

/-- The system call `close(2)` on the descriptor table: `true` and the
descriptor gone when it was open, `false` (`EBADF`) otherwise. -/
def World.close (w : World) (fd : Int) : Bool × World :=
  if fd ∈ w.openFds then
    (true, { w with openFds := w.openFds.filter (fun x => x ≠ fd) })
  else
    (false, w)

/-- Modelled from the spec: `AutoCloseFD::close` (util.cc, not among the
sources), the "close" half of the half-close: an owned descriptor is closed
and given up, a failing `close(2)` raises `SysError` and keeps it, and an
owner of nothing is left alone. -/
def AutoCloseFD.close (self : AutoCloseFD) (w : World) :
    Except Error Unit × AutoCloseFD × World :=
  if self.fd ≠ -1 then
    match w.close self.fd with
    | (true, w1) => (.ok (), { fd := -1 }, w1)
    | (false, w1) => (.error (.sysError "closing file descriptor"), self, w1)
  else
    (.ok (), self, w)

/-! ## `SSHMaster` -/

/-- The members of `SSHMaster::Connection` (ssh.hh) used by the store: the
descriptor `in` that writes to the remote command and the descriptor `out`
that reads from it. -/
structure SSHMaster.Connection where
  out : AutoCloseFD
  in_ : AutoCloseFD
  deriving DecidableEq, Repr

/-- The members of `SSHMaster` (ssh.hh): the constructor arguments and the
running master process, if one has been started. -/
structure SSHMaster where
  host : String
  keyFile : Path
  sshPublicHostKey : String
  useMaster : Bool
  compress : Bool
  sshMaster : Option Nat := none
  deriving DecidableEq, Repr

/-- Modelled from the spec: the constructor of `SSHMaster` (ssh.cc, not among
the sources) keeps its arguments in the order host, key file, host key,
"use a master", compression; no master runs yet. -/
def SSHMaster.new (host : String) (keyFile : Path) (sshPublicHostKey : String)
    (useMaster : Bool) (compress : Bool) : SSHMaster :=
  { host := host, keyFile := keyFile, sshPublicHostKey := sshPublicHostKey
    useMaster := useMaster, compress := compress, sshMaster := none }

/-- Modelled from the spec: `SSHMaster::startMaster` (ssh.cc, not among the
sources). Without multiplexing there is no master; with it the master is
established lazily at most once and reused afterwards. -/
def SSHMaster.startMaster (self : SSHMaster) (w : World) : Option Nat × SSHMaster × World :=
  if self.useMaster then
    match self.sshMaster with
    | some m => (some m, self, w)
    | none =>
      (some w.masters.length, { self with sshMaster := some w.masters.length },
        { w with masters := w.masters ++ [self.host] })
  else
    (none, self, w)

/-- A descriptor number above every open one. -/
def World.freshFd (w : World) : Int :=
  w.openFds.foldl max 2 + 1

/-- Modelled from the spec: `SSHMaster::startCommand` (ssh.cc, not among the
sources). It obtains or reuses the master, spawns the remote command over it
and hands back the byte-stream pair bound to the spawned process: two newly
opened descriptors. -/
def SSHMaster.startCommand (self : SSHMaster) (command : String) (w : World) :
    SSHMaster.Connection × SSHMaster × World :=
  match self.startMaster w with
  | (sock, master, w1) =>
    let fdIn := w1.freshFd
    let fdOut := fdIn + 1
    ({ out := { fd := fdOut }, in_ := { fd := fdIn } }, master,
      { w1 with
        openFds := fdIn :: fdOut :: w1.openFds
        spawned := w1.spawned ++ [{ host := self.host, command := command, controlMaster := sock }] })

/-! ## `SSHStore` -/

/-- The settings of `SSHStoreConfig` (ssh-store.cc:16-20). -/
structure SSHStoreConfig where
  sshKey : Path
  sshPublicHostKey : String
  compress : Bool
  remoteProgram : Path
  remoteStore : String
  deriving DecidableEq, Repr

/-- Construction of an `SSHStoreConfig`: each setting is its default unless
`Params` sets it (ssh-store.cc:16-20). -/
def SSHStoreConfig.new (params : Params) : SSHStoreConfig :=
  { sshKey := setting "" params.sshKey
    sshPublicHostKey := setting "" params.sshPublicHostKey
    compress := setting false params.compress
    remoteProgram := setting "nix-daemon" params.remoteProgram
    remoteStore := setting "" params.remoteStore }

/-- The sink `FdSink` (serialise.hh): the descriptor it writes to. -/
structure FdSink where
  fd : Int
  deriving DecidableEq, Repr

/-- The source `FdSource` (serialise.hh): the descriptor it reads from. -/
structure FdSource where
  fd : Int
  deriving DecidableEq, Repr

/-- The members of `SSHStore::Connection` (ssh-store.cc:59-67) with the `to`
and `from` it inherits from `RemoteStore::Connection` (`to_`, `from_`; and
`in_` for the member `in`: the plain names are reserved words). -/
structure SSHStore.Connection where
  sshConn : SSHMaster.Connection
  to_ : FdSink
  from_ : FdSource
  deriving DecidableEq, Repr

/-- The method `SSHStore::Connection::closeWrite` (ssh-store.cc:63-66). -/
def SSHStore.Connection.closeWrite (self : SSHStore.Connection) (w : World) :
    Except Error Unit × SSHStore.Connection × World :=
  match self.sshConn.in_.close w with
  | (r, fdIn, w1) => (r, { self with sshConn := { self.sshConn with in_ := fdIn } }, w1)

/-- The members of an `SSHStore` object (ssh-store.cc:25-86): its settings, the
capacity of the connection pool built by `RemoteStore`, the idle connections of
that pool, `host`, `extraRemoteProgramArgs` and `master`. -/
structure SSHStore extends SSHStoreConfig where
  capacity : Nat
  idle : List SSHStore.Connection
  host : String
  extraRemoteProgramArgs : String
  master : SSHMaster
  deriving DecidableEq, Repr

/-- The constructor `SSHStore::SSHStore` (ssh-store.cc:29-44); `capacity` is
what `connections->capacity()` reports for the pool that the constructor of
`RemoteStore` has built. The member `extraRemoteProgramArgs` has no
initialiser and starts empty. -/
def SSHStore.new (scheme : String) (host : String) (params : Params) (capacity : Nat) :
    SSHStore :=
  let _ := scheme
  let config := SSHStoreConfig.new params
  { toSSHStoreConfig := config
    capacity := capacity
    idle := []
    host := host
    extraRemoteProgramArgs := ""
    master := SSHMaster.new host config.sshKey config.sshPublicHostKey
      (decide (capacity > 1)) config.compress }

/-- The static `SSHStore::uriSchemes` (ssh-store.cc:46); `begin()` of the set
is its only member. -/
def SSHStore.uriSchemes : List String := ["ssh-ng"]

/-- The method `SSHStore::getUri` (ssh-store.cc:48-51). -/
def SSHStore.getUri (self : SSHStore) : String :=
  SSHStore.uriSchemes.headD "" ++ "://" ++ self.host

/-- Modelled from the spec: `Store::unsupported` (store-api.hh, not among the
sources) raises the "unsupported" signal, which reports the operation and the
backend (its URI) and touches nothing. -/
def unsupported {α σ : Type} (uri : String) (op : String) (self : σ) (w : World) :
    Except Error α × σ × World :=
  (.error (.unsupported op uri), self, w)

/-- Body of `SSHStore::getBuildLogExact` (ssh-store.cc:54-55) on an object
whose virtual `getUri()` gives `uri`. -/
def SSHStore.getBuildLogExactBody {σ : Type} (uri : String) (path : StorePath)
    (self : σ) (w : World) : Except Error (Option String) × σ × World :=
  let _ := path
  unsupported uri "getBuildLogExact" self w

/-- The method `SSHStore::getBuildLogExact` on an `SSHStore` object. -/
def SSHStore.getBuildLogExact (self : SSHStore) (path : StorePath) (w : World) :
    Except Error (Option String) × SSHStore × World :=
  SSHStore.getBuildLogExactBody (SSHStore.getUri self) path self w

section
variable (shellEscape : String → String)

/-- The method `SSHStore::openConnection` (ssh-store.cc:142-152); `shellEscape`
is the function of that name from util.hh. -/
def SSHStore.openConnection (self : SSHStore) (w : World) :
    SSHStore.Connection × SSHStore × World :=
  match self.master.startCommand
      ((self.remoteProgram ++ " --stdio")
        ++ (if self.remoteStore = "" then "" else " --store " ++ shellEscape self.remoteStore)
        ++ (if self.extraRemoteProgramArgs = "" then "" else " " ++ self.extraRemoteProgramArgs))
      w with
  | (sshConn, master, w1) =>
    ({ sshConn := sshConn, to_ := { fd := sshConn.in_.get }, from_ := { fd := sshConn.out.get } },
      { self with master := master }, w1)

/-- Calls `openConnection` `n` times in a row, collecting the connections. -/
def SSHStore.openConnections : Nat → SSHStore → World →
    List SSHStore.Connection × SSHStore × World
  | 0, self, w => ([], self, w)
  | n + 1, self, w =>
    match SSHStore.openConnection shellEscape self w with
    | (c, self1, w1) =>
      match SSHStore.openConnections n self1 w1 with
      | (cs, self2, w2) => (c :: cs, self2, w2)

/-! ## `RemoteStore`, `LocalFSStore` and `IndirectRootStore` operations -/

/-- Modelled from the spec: `RemoteStore::getConnection` (remote-store.cc, not
among the sources) checks a connection out of the pool, an idle one when there
is one and a newly opened one otherwise. -/
def RemoteStore.getConnection (self : SSHStore) (w : World) :
    SSHStore.Connection × SSHStore × World :=
  match self.idle with
  | c :: rest => (c, { self with idle := rest }, w)
  | [] => SSHStore.openConnection shellEscape self w

/-- Modelled from the spec: a store operation of `RemoteStore`
(remote-store.cc, not among the sources) is one request/response round-trip
of the worker protocol on a connection of the pool, which goes back to the
pool afterwards; the result is the daemon's answer. -/
def RemoteStore.roundTrip (op : String) (args : List String) (self : SSHStore) (w : World) :
    Except Error String × SSHStore × World :=
  match RemoteStore.getConnection shellEscape self w with
  | (c, self1, w1) =>
    (.ok (w1.daemon op args), { self1 with idle := c :: self1.idle },
      { w1 with roundTrips := w1.roundTrips ++ [(op, args)] })

/-- Modelled from the spec: `RemoteStore::addPermRoot` (remote-store.cc, not
among the sources), a protocol round-trip. -/
def RemoteStore.addPermRoot (self : SSHStore) (path : StorePath) (gcRoot : Path) (w : World) :
    Except Error Path × SSHStore × World :=
  RemoteStore.roundTrip shellEscape "addPermRoot" [path, gcRoot] self w

/-- Modelled from the spec: `RemoteStore::narFromPath` (remote-store.cc, not
among the sources), a protocol round-trip answering with the archive. -/
def RemoteStore.narFromPath (self : SSHStore) (path : StorePath) (w : World) :
    Except Error String × SSHStore × World :=
  RemoteStore.roundTrip shellEscape "narFromPath" [path] self w

end

/-- The two kinds of accessor `getFSAccessor` can hand out: one that asks the
daemon and one that reads the local filesystem. -/
inductive FSAccessor where
  | remote
  | localFS
  deriving DecidableEq, Repr

/-- Modelled from the spec: `RemoteStore::getFSAccessor` (remote-store.cc, not
among the sources) hands out the accessor that asks the daemon. -/
def RemoteStore.getFSAccessor (_self : SSHStore) : FSAccessor :=
  .remote

/-- Modelled from the spec: `LocalFSStore::getFSAccessor` (local-fs-store.cc,
not among the sources) hands out the accessor on the local filesystem. -/
def LocalFSStore.getFSAccessor (_self : LocalFSStore) : FSAccessor :=
  .localFS

/-- Modelled from the spec: the fixed "drvs log directory" subpath, the
constant `LocalFSStore::drvsLogDir` (declared at local-fs-store.hh:45, its
value is given outside the sources). -/
def LocalFSStore.drvsLogDir : String := "drvs"

/-- Modelled from the spec: `LocalFSStore::getBuildLogExact`
(local-fs-store.cc, not among the sources) looks for the log file of the
object under the "drvs log directory" of the log directory and answers with
its content, or with an absent result when there is none; never an error. -/
def LocalFSStore.getBuildLogExact (self : LocalFSStore) (path : StorePath) (w : World) :
    Except Error (Option String) × World :=
  (.ok (w.files.lookup (self.logDir ++ "/" ++ LocalFSStore.drvsLogDir ++ "/" ++ path)), w)

/-- Modelled from the spec: `IndirectRootStore::addPermRoot`
(local-fs-store.cc, not among the sources) creates the direct symlink at
`gcRoot` to the real location of the object and then registers the indirect
root through the backend's `addIndirectRoot`. -/
def IndirectRootStore.addPermRoot (addIndirectRoot : Path → World → World)
    (self : LocalFSStore) (storePath : StorePath) (gcRoot : Path) (w : World) :
    Except Error Path × World :=
  match LocalFSStore.toRealPath self (self.storeDir ++ "/" ++ storePath) with
  | .ok target =>
    (.ok gcRoot, addIndirectRoot gcRoot { w with symlinks := w.symlinks ++ [(gcRoot, target)] })
  | .error e => (.error e, w)

/-! ## `MountedSSHStore` -/

/-- A `MountedSSHStore` object (ssh-store.cc:93): an `SSHStore` and a
`LocalFSStore` in one. -/
structure MountedSSHStore where
  toSSHStore : SSHStore
  toLocalFSStore : LocalFSStore
  deriving DecidableEq, Repr

/-- The constructor `MountedSSHStore::MountedSSHStore` (ssh-store.cc:97-108). -/
def MountedSSHStore.new (settings : Settings) (storeDir : Path) (scheme : String)
    (host : String) (params : Params) (capacity : Nat) : MountedSSHStore :=
  { toSSHStore :=
      { SSHStore.new scheme host params capacity with
        extraRemoteProgramArgs := "--process-ops --allow-perm-roots" }
    toLocalFSStore := LocalFSStoreConfig.new settings storeDir params }

/-- The static `MountedSSHStore::uriSchemes` (ssh-store.cc:110-113). -/
def MountedSSHStore.uriSchemes : List String := ["mounted-ssh"]

/-- The method `MountedSSHStore::getUri` (ssh-store.cc:115-118). -/
def MountedSSHStore.getUri (self : MountedSSHStore) : String :=
  MountedSSHStore.uriSchemes.headD "" ++ "://" ++ self.toSSHStore.host

section
variable (shellEscape : String → String)

/-- The method `MountedSSHStore::narFromPath` (ssh-store.cc:120-123): a call of
`SSHStore::narFromPath`, which `SSHStore` inherits from `RemoteStore`. -/
def MountedSSHStore.narFromPath (self : MountedSSHStore) (path : StorePath) (w : World) :
    Except Error String × MountedSSHStore × World :=
  match RemoteStore.narFromPath shellEscape self.toSSHStore path w with
  | (r, ssh, w1) => (r, { self with toSSHStore := ssh }, w1)

/-- The method `MountedSSHStore::addPermRoot` (ssh-store.cc:136-139). -/
def MountedSSHStore.addPermRoot (self : MountedSSHStore) (path : StorePath) (gcRoot : Path)
    (w : World) : Except Error Path × MountedSSHStore × World :=
  match RemoteStore.addPermRoot shellEscape self.toSSHStore path gcRoot w with
  | (r, ssh, w1) => (r, { self with toSSHStore := ssh }, w1)

end

/-- The method `MountedSSHStore::getFSAccessor` (ssh-store.cc:125-128): a call
of `SSHStore::getFSAccessor`, which `SSHStore` inherits from `RemoteStore`. -/
def MountedSSHStore.getFSAccessor (self : MountedSSHStore) : FSAccessor :=
  RemoteStore.getFSAccessor self.toSSHStore

/-- The method `MountedSSHStore::getBuildLogExact` (ssh-store.cc:130-133): a
call of `SSHStore::getBuildLogExact` on this object. -/
def MountedSSHStore.getBuildLogExact (self : MountedSSHStore) (path : StorePath) (w : World) :
    Except Error (Option String) × MountedSSHStore × World :=
  SSHStore.getBuildLogExactBody (MountedSSHStore.getUri self) path self w

/-! ## Properties of `LocalFSStoreConfig` and `toRealPath` -/

/-- A path in the store is the store directory, `/` and what follows the first
`storeDir.size() + 1` characters. -/
theorem isInStore_decomp (storeDir p : Path) (h : isInStore storeDir p = true) :
    p.data = storeDir.data ++ '/' :: p.data.drop (storeDir.length + 1) := by
  simp only [isInStore, Bool.and_eq_true, decide_eq_true_eq] at h
  obtain ⟨⟨h1, h2⟩, h3⟩ := h
  have hlt : storeDir.length < p.data.length := by
    have : p.length = p.data.length := rfl
    omega
  rw [List.get?_eq_getElem?, List.getElem?_eq_getElem hlt] at h3
  simp only [Option.some.injEq] at h3
  conv_lhs => rw [← List.take_append_drop storeDir.length p.data]
  rw [h1, List.drop_eq_getElem_cons hlt, h3]

/-- A path in the store is at least two characters longer than the store
directory. -/
theorem isInStore_length (storeDir p : Path) (h : isInStore storeDir p = true) :
    storeDir.length + 2 ≤ p.length := by
  simp only [isInStore, Bool.and_eq_true, decide_eq_true_eq] at h
  exact h.1.2

/-- On a path in the store the assertion of `toRealPath` passes and the
substring constructor stays in range. -/
theorem toRealPath_of_isInStore (self : LocalFSStore) (p : Path)
    (h : isInStore self.storeDir p = true) :
    LocalFSStore.toRealPath self p
      = .ok (LocalFSStore.getRealStoreDir self ++ "/"
          ++ ⟨p.data.drop (self.storeDir.length + 1)⟩) := by
  have hl := isInStore_length _ _ h
  have hle : self.storeDir.length + 1 ≤ p.length := by omega
  simp [LocalFSStore.toRealPath, h, substrFrom, hle]

/-- On a path outside the store `toRealPath` stops at its assertion. -/
theorem toRealPath_of_not_isInStore (self : LocalFSStore) (p : Path)
    (h : isInStore self.storeDir p = false) :
    LocalFSStore.toRealPath self p = .error (.assertionFailed "isInStore(storePath)") := by
  simp [LocalFSStore.toRealPath, h]

/-- C2: for a path in the store, `toRealPath` succeeds with the real store
directory, `/` and the path without its first `storeDir.size() + 1` characters,
and putting the store directory back in place of the leading real store
directory gives the path again. -/
theorem toRealPath_roundtrip (self : LocalFSStore) (p : Path)
    (h : isInStore self.storeDir p = true) :
    LocalFSStore.toRealPath self p
        = .ok (LocalFSStore.getRealStoreDir self ++ "/"
            ++ ⟨p.data.drop (self.storeDir.length + 1)⟩)
      ∧ fromRealPath self
          (LocalFSStore.getRealStoreDir self ++ "/"
            ++ ⟨p.data.drop (self.storeDir.length + 1)⟩) = some p := by
  refine ⟨toRealPath_of_isInStore self p h, ?_⟩
  have hd := isInStore_decomp _ _ h
  generalize p.data.drop (self.storeDir.length + 1) = rest at hd ⊢
  have hp : (LocalFSStore.getRealStoreDir self).data.isPrefixOf
      (LocalFSStore.getRealStoreDir self ++ "/" ++ (⟨rest⟩ : String)).data = true := by
    rw [List.isPrefixOf_iff_prefix]
    simp [String.data_append, List.append_assoc]
  have hlen : (LocalFSStore.getRealStoreDir self).length
      = (LocalFSStore.getRealStoreDir self).data.length := rfl
  simp only [fromRealPath, hp, if_true, Option.some.injEq]
  apply String.ext
  simp only [String.data_append, List.append_assoc, hlen, List.drop_left, hd]
  rfl

/-- Witness of C2: the store `/nix/store` mounted under `/mnt`. -/
theorem toRealPath_roundtrip_witness :
    LocalFSStore.toRealPath
        (LocalFSStoreConfig.new ⟨"/nix/var/nix", "/nix/var/log/nix"⟩ "/nix/store"
          { root := some "/mnt" }) "/nix/store/abc-hello"
      = .ok "/mnt/nix/store/abc-hello"
    ∧ fromRealPath
        (LocalFSStoreConfig.new ⟨"/nix/var/nix", "/nix/var/log/nix"⟩ "/nix/store"
          { root := some "/mnt" }) "/mnt/nix/store/abc-hello"
      = some "/nix/store/abc-hello" :=
  toRealPath_roundtrip
    (LocalFSStoreConfig.new ⟨"/nix/var/nix", "/nix/var/log/nix"⟩ "/nix/store"
      { root := some "/mnt" }) "/nix/store/abc-hello" (by decide)

/-- C3: outside the store namespace `toRealPath` stops at its assertion and
gives no path; it gives a path exactly when `isInStore` holds. -/
theorem toRealPath_fails_outside_store (self : LocalFSStore) (p : Path) :
    (isInStore self.storeDir p = false →
        LocalFSStore.toRealPath self p = .error (.assertionFailed "isInStore(storePath)")
        ∧ ∀ r, LocalFSStore.toRealPath self p ≠ .ok r)
      ∧ ((∃ r, LocalFSStore.toRealPath self p = .ok r) ↔ isInStore self.storeDir p = true) := by
  constructor
  · intro h
    rw [toRealPath_of_not_isInStore self p h]
    exact ⟨rfl, fun r hr => by cases hr⟩
  · constructor
    · rintro ⟨r, hr⟩
      cases hin : isInStore self.storeDir p
      · rw [toRealPath_of_not_isInStore self p hin] at hr
        cases hr
      · rfl
    · intro h
      exact ⟨_, toRealPath_of_isInStore self p h⟩

/-- Witness of C3: a sibling of the store directory and the store directory
itself are refused. -/
theorem toRealPath_fails_outside_store_witness :
    LocalFSStore.toRealPath
        (LocalFSStoreConfig.new ⟨"/nix/var/nix", "/nix/var/log/nix"⟩ "/nix/store" {})
        "/nix/storeXabc"
      = .error (.assertionFailed "isInStore(storePath)")
    ∧ LocalFSStore.toRealPath
        (LocalFSStoreConfig.new ⟨"/nix/var/nix", "/nix/var/log/nix"⟩ "/nix/store" {})
        "/nix/store/"
      = .error (.assertionFailed "isInStore(storePath)") :=
  ⟨((toRealPath_fails_outside_store
      (LocalFSStoreConfig.new ⟨"/nix/var/nix", "/nix/var/log/nix"⟩ "/nix/store" {})
      "/nix/storeXabc").1 (by decide)).1,
   ((toRealPath_fails_outside_store
      (LocalFSStoreConfig.new ⟨"/nix/var/nix", "/nix/var/log/nix"⟩ "/nix/store" {})
      "/nix/store/").1 (by decide)).1⟩

/-- C4: with a non-empty `rootDir` the defaults of `stateDir`, `logDir` and
`realStoreDir` are `rootDir` followed by `/nix/var/nix`, `/nix/var/log/nix` and
`/nix/store`, so each starts with `rootDir`; with an empty `rootDir` they are
`settings.nixStateDir`, `settings.nixLogDir` and `storeDir`. A constructed
configuration holds these defaults wherever `Params` does not set the key. -/
theorem derived_dirs_rooted_or_default (settings : Settings) (storeDir : Path)
    (params : Params) :
    ((LocalFSStoreConfig.new settings storeDir params).rootDir ≠ "" →
        defaultStateDir settings (LocalFSStoreConfig.new settings storeDir params).rootDir
            = (LocalFSStoreConfig.new settings storeDir params).rootDir ++ "/nix/var/nix"
        ∧ defaultLogDir settings (LocalFSStoreConfig.new settings storeDir params).rootDir
            = (LocalFSStoreConfig.new settings storeDir params).rootDir ++ "/nix/var/log/nix"
        ∧ defaultRealStoreDir storeDir (LocalFSStoreConfig.new settings storeDir params).rootDir
            = (LocalFSStoreConfig.new settings storeDir params).rootDir ++ "/nix/store"
        ∧ (LocalFSStoreConfig.new settings storeDir params).rootDir.data
            <+: (defaultStateDir settings
                  (LocalFSStoreConfig.new settings storeDir params).rootDir).data
        ∧ (LocalFSStoreConfig.new settings storeDir params).rootDir.data
            <+: (defaultLogDir settings
                  (LocalFSStoreConfig.new settings storeDir params).rootDir).data
        ∧ (LocalFSStoreConfig.new settings storeDir params).rootDir.data
            <+: (defaultRealStoreDir storeDir
                  (LocalFSStoreConfig.new settings storeDir params).rootDir).data)
      ∧ ((LocalFSStoreConfig.new settings storeDir params).rootDir = "" →
        defaultStateDir settings (LocalFSStoreConfig.new settings storeDir params).rootDir
            = settings.nixStateDir
        ∧ defaultLogDir settings (LocalFSStoreConfig.new settings storeDir params).rootDir
            = settings.nixLogDir
        ∧ defaultRealStoreDir storeDir (LocalFSStoreConfig.new settings storeDir params).rootDir
            = storeDir)
      ∧ (params.state = none →
          (LocalFSStoreConfig.new settings storeDir params).stateDir
            = defaultStateDir settings (LocalFSStoreConfig.new settings storeDir params).rootDir)
      ∧ (params.log = none →
          (LocalFSStoreConfig.new settings storeDir params).logDir
            = defaultLogDir settings (LocalFSStoreConfig.new settings storeDir params).rootDir)
      ∧ (params.real = none →
          (LocalFSStoreConfig.new settings storeDir params).realStoreDir
            = defaultRealStoreDir storeDir
                (LocalFSStoreConfig.new settings storeDir params).rootDir) := by
  generalize hroot : (LocalFSStoreConfig.new settings storeDir params).rootDir = root
  refine ⟨fun hne => ?_, fun he => ?_, fun hs => ?_, fun hl => ?_, fun hr => ?_⟩
  · simp only [defaultStateDir, defaultLogDir, defaultRealStoreDir, hne, ne_eq,
      not_false_eq_true, if_true, String.data_append, true_and]
    exact ⟨List.prefix_append _ _, List.prefix_append _ _, List.prefix_append _ _⟩
  · subst he
    simp [defaultStateDir, defaultLogDir, defaultRealStoreDir]
  · rw [← hroot]
    simp [LocalFSStoreConfig.new, pathSetting, setting, hs]
  · rw [← hroot]
    simp [LocalFSStoreConfig.new, pathSetting, setting, hl]
  · rw [← hroot]
    simp [LocalFSStoreConfig.new, pathSetting, setting, hr]

/-- Witness of C4: a configuration rooted at `/mnt`, nothing else set. -/
theorem derived_dirs_rooted_or_default_witness :
    defaultStateDir ⟨"/nix/var/nix", "/nix/var/log/nix"⟩ "/mnt" = "/mnt/nix/var/nix"
      ∧ defaultLogDir ⟨"/nix/var/nix", "/nix/var/log/nix"⟩ "/mnt" = "/mnt/nix/var/log/nix"
      ∧ defaultRealStoreDir "/nix/store" "/mnt" = "/mnt/nix/store"
      ∧ "/mnt".data <+: (defaultStateDir ⟨"/nix/var/nix", "/nix/var/log/nix"⟩ "/mnt").data
      ∧ "/mnt".data <+: (defaultLogDir ⟨"/nix/var/nix", "/nix/var/log/nix"⟩ "/mnt").data
      ∧ "/mnt".data <+: (defaultRealStoreDir "/nix/store" "/mnt").data :=
  (derived_dirs_rooted_or_default ⟨"/nix/var/nix", "/nix/var/log/nix"⟩ "/nix/store"
    { root := some "/mnt" }).1 (by decide)

/-- C10: with an empty `rootDir` and no `real` override the real store directory
is `storeDir`, and `toRealPath` gives back every in-store path unchanged. -/
theorem toRealPath_identity_without_root (settings : Settings) (storeDir : Path)
    (params : Params) (p : Path)
    (hroot : (LocalFSStoreConfig.new settings storeDir params).rootDir = "")
    (hreal : params.real = none)
    (h : isInStore storeDir p = true) :
    LocalFSStore.getRealStoreDir (LocalFSStoreConfig.new settings storeDir params) = storeDir
      ∧ LocalFSStore.toRealPath (LocalFSStoreConfig.new settings storeDir params) p = .ok p := by
  have hdir : LocalFSStore.getRealStoreDir (LocalFSStoreConfig.new settings storeDir params)
      = storeDir := by
    simp only [LocalFSStoreConfig.new] at hroot
    simp [LocalFSStore.getRealStoreDir, LocalFSStoreConfig.new, hreal, pathSetting, setting,
      defaultRealStoreDir] at hroot ⊢
    simp [hroot]
  have hsd : (LocalFSStoreConfig.new settings storeDir params).storeDir = storeDir := rfl
  refine ⟨hdir, ?_⟩
  rw [toRealPath_of_isInStore _ p (by rw [hsd]; exact h), hdir, hsd]
  congr 1
  apply String.ext
  have hd := isInStore_decomp _ _ h
  simp only [String.data_append, List.append_assoc]
  exact hd.symm

/-- Witness of C10: the default store directory with no settings given. -/
theorem toRealPath_identity_without_root_witness :
    LocalFSStore.getRealStoreDir
        (LocalFSStoreConfig.new ⟨"/nix/var/nix", "/nix/var/log/nix"⟩ "/nix/store" {})
      = "/nix/store"
    ∧ LocalFSStore.toRealPath
        (LocalFSStoreConfig.new ⟨"/nix/var/nix", "/nix/var/log/nix"⟩ "/nix/store" {})
        "/nix/store/abc-hello"
      = .ok "/nix/store/abc-hello" :=
  toRealPath_identity_without_root ⟨"/nix/var/nix", "/nix/var/log/nix"⟩ "/nix/store" {}
    "/nix/store/abc-hello" (by decide) (by decide) (by decide)

/-! ## Properties of the SSH stores -/

/-- C6: on an `SSHStore`, `getBuildLogExact` raises the "unsupported" signal
naming `getBuildLogExact` (and the `ssh-ng` URI of the store), gives no value,
and leaves the store object and the world as they were: no connection is
checked out, no command is spawned and no request is sent. -/
theorem SSHStore_getBuildLogExact_unsupported (self : SSHStore) (path : StorePath)
    (w : World) :
    SSHStore.getBuildLogExact self path w
        = (.error (.unsupported "getBuildLogExact" ("ssh-ng://" ++ self.host)), self, w)
      ∧ (∀ v, (SSHStore.getBuildLogExact self path w).1 ≠ .ok v)
      ∧ (SSHStore.getBuildLogExact self path w).2.1.idle = self.idle
      ∧ (SSHStore.getBuildLogExact self path w).2.1.master = self.master
      ∧ (SSHStore.getBuildLogExact self path w).2.2.spawned = w.spawned
      ∧ (SSHStore.getBuildLogExact self path w).2.2.masters = w.masters
      ∧ (SSHStore.getBuildLogExact self path w).2.2.roundTrips = w.roundTrips
      ∧ (SSHStore.getBuildLogExact self path w).2.2.openFds = w.openFds := by
  have h : SSHStore.getBuildLogExact self path w
      = (.error (.unsupported "getBuildLogExact" ("ssh-ng://" ++ self.host)), self, w) := rfl
  refine ⟨h, ?_, ?_, ?_, ?_, ?_, ?_, ?_⟩ <;> rw [h]
  intro v hv
  cases hv

/-- C8: the command that `openConnection` starts on the host is
`remoteProgram` and ` --stdio`, then ` --store ` and the escaped `remoteStore`
exactly when `remoteStore` is not empty, then a blank and
`extraRemoteProgramArgs` exactly when that is not empty. A newly constructed
`SSHStore` has no extra arguments; a newly constructed `MountedSSHStore` has
`--process-ops --allow-perm-roots`, so its command always ends in them. -/
theorem openConnection_remote_command (shellEscape : String → String) (self : SSHStore)
    (w : World) (settings : Settings) (storeDir : Path) (scheme host : String)
    (params : Params) (capacity : Nat) :
    (SSHStore.openConnection shellEscape self w).2.2.spawned
        = w.spawned ++
          [{ host := self.master.host
             command := self.remoteProgram ++ " --stdio"
               ++ (if self.remoteStore = "" then "" else " --store " ++ shellEscape self.remoteStore)
               ++ (if self.extraRemoteProgramArgs = "" then ""
                    else " " ++ self.extraRemoteProgramArgs)
             controlMaster := (self.master.startMaster w).1 }]
      ∧ (SSHStore.new scheme host params capacity).extraRemoteProgramArgs = ""
      ∧ (MountedSSHStore.new settings storeDir scheme host params capacity).toSSHStore.extraRemoteProgramArgs
          = "--process-ops --allow-perm-roots"
      ∧ (SSHStore.openConnection shellEscape (SSHStore.new scheme host params capacity) w).2.2.spawned.map
            SpawnedCommand.command
          = w.spawned.map SpawnedCommand.command ++
            [(SSHStore.new scheme host params capacity).remoteProgram ++ " --stdio"
              ++ (if (SSHStore.new scheme host params capacity).remoteStore = "" then ""
                  else " --store "
                    ++ shellEscape (SSHStore.new scheme host params capacity).remoteStore)]
      ∧ (SSHStore.openConnection shellEscape
            (MountedSSHStore.new settings storeDir scheme host params capacity).toSSHStore
            w).2.2.spawned.map SpawnedCommand.command
          = w.spawned.map SpawnedCommand.command ++
            [(SSHStore.new scheme host params capacity).remoteProgram ++ " --stdio"
              ++ (if (SSHStore.new scheme host params capacity).remoteStore = "" then ""
                  else " --store "
                    ++ shellEscape (SSHStore.new scheme host params capacity).remoteStore)
              ++ " --process-ops --allow-perm-roots"] := by
  have hgen : ∀ s : SSHStore, (SSHStore.openConnection shellEscape s w).2.2.spawned
        = w.spawned ++
          [{ host := s.master.host
             command := s.remoteProgram ++ " --stdio"
               ++ (if s.remoteStore = "" then "" else " --store " ++ shellEscape s.remoteStore)
               ++ (if s.extraRemoteProgramArgs = "" then "" else " " ++ s.extraRemoteProgramArgs)
             controlMaster := (s.master.startMaster w).1 }] := by
    intro s
    simp only [SSHStore.openConnection, SSHMaster.startCommand, SSHMaster.startMaster]
    cases s.master.useMaster <;> cases s.master.sshMaster <;> rfl
  refine ⟨hgen self, rfl, rfl, ?_, ?_⟩
  · rw [hgen]
    simp [SSHStore.new]
  · rw [hgen]
    simp [SSHStore.new, MountedSSHStore.new, String.append_assoc]

/-- Witness of C8: the commands of a plain and of a mounted store that target
the sub-store `local?root=/x` of the host, escaped by quoting. -/
theorem openConnection_remote_command_witness :
    (SSHStore.openConnection (fun s => "'" ++ s ++ "'")
        (SSHStore.new "ssh-ng" "builder" { remoteStore := some "local?root=/x" } 1)
        {}).2.2.spawned.map SpawnedCommand.command
      = ["nix-daemon --stdio --store 'local?root=/x'"]
    ∧ (SSHStore.openConnection (fun s => "'" ++ s ++ "'")
        (MountedSSHStore.new ⟨"/nix/var/nix", "/nix/var/log/nix"⟩ "/nix/store" "mounted-ssh"
          "builder" { remoteStore := some "local?root=/x" } 1).toSSHStore
        {}).2.2.spawned.map SpawnedCommand.command
      = ["nix-daemon --stdio --store 'local?root=/x' --process-ops --allow-perm-roots"] :=
  ⟨(openConnection_remote_command (fun s => "'" ++ s ++ "'")
      (SSHStore.new "ssh-ng" "builder" { remoteStore := some "local?root=/x" } 1) {}
      ⟨"/nix/var/nix", "/nix/var/log/nix"⟩ "/nix/store" "ssh-ng" "builder"
      { remoteStore := some "local?root=/x" } 1).2.2.2.1,
   (openConnection_remote_command (fun s => "'" ++ s ++ "'")
      (SSHStore.new "ssh-ng" "builder" { remoteStore := some "local?root=/x" } 1) {}
      ⟨"/nix/var/nix", "/nix/var/log/nix"⟩ "/nix/store" "mounted-ssh" "builder"
      { remoteStore := some "local?root=/x" } 1).2.2.2.2⟩

/-- Checking a connection out of the pool leaves the daemon, the requests
answered so far and the local filesystem alone. -/
theorem getConnection_frame (shellEscape : String → String) (self : SSHStore) (w : World) :
    (RemoteStore.getConnection shellEscape self w).2.2.daemon = w.daemon
      ∧ (RemoteStore.getConnection shellEscape self w).2.2.roundTrips = w.roundTrips
      ∧ (RemoteStore.getConnection shellEscape self w).2.2.symlinks = w.symlinks
      ∧ (RemoteStore.getConnection shellEscape self w).2.2.files = w.files := by
  simp only [RemoteStore.getConnection]
  cases self.idle with
  | cons c rest => exact ⟨rfl, rfl, rfl, rfl⟩
  | nil =>
    simp only [SSHStore.openConnection, SSHMaster.startCommand, SSHMaster.startMaster]
    cases self.master.useMaster <;> cases self.master.sshMaster <;> exact ⟨rfl, rfl, rfl, rfl⟩

/-- C5: on a `MountedSSHStore`, `addPermRoot` is the `addPermRoot` of
`RemoteStore`: it returns what that returns (the daemon's answer), does one
`addPermRoot` round-trip for the path and the root location, and creates no
symlink on the local filesystem. -/
theorem MountedSSHStore_addPermRoot_remote (shellEscape : String → String)
    (self : MountedSSHStore) (p : StorePath) (g : Path) (w : World) :
    (MountedSSHStore.addPermRoot shellEscape self p g w).1
        = (RemoteStore.addPermRoot shellEscape self.toSSHStore p g w).1
      ∧ (MountedSSHStore.addPermRoot shellEscape self p g w).2.1.toSSHStore
        = (RemoteStore.addPermRoot shellEscape self.toSSHStore p g w).2.1
      ∧ (MountedSSHStore.addPermRoot shellEscape self p g w).2.2
        = (RemoteStore.addPermRoot shellEscape self.toSSHStore p g w).2.2
      ∧ (MountedSSHStore.addPermRoot shellEscape self p g w).1
        = .ok (w.daemon "addPermRoot" [p, g])
      ∧ (MountedSSHStore.addPermRoot shellEscape self p g w).2.2.roundTrips
        = w.roundTrips ++ [("addPermRoot", [p, g])]
      ∧ (MountedSSHStore.addPermRoot shellEscape self p g w).2.2.symlinks = w.symlinks
      ∧ (MountedSSHStore.addPermRoot shellEscape self p g w).2.1.toLocalFSStore
        = self.toLocalFSStore := by
  obtain ⟨hd, hr, hs, -⟩ := getConnection_frame shellEscape self.toSSHStore w
  refine ⟨rfl, rfl, rfl, ?_, ?_, ?_, rfl⟩
  · simp only [MountedSSHStore.addPermRoot, RemoteStore.addPermRoot, RemoteStore.roundTrip, hd]
  · simp only [MountedSSHStore.addPermRoot, RemoteStore.addPermRoot, RemoteStore.roundTrip, hr]
  · simp only [MountedSSHStore.addPermRoot, RemoteStore.addPermRoot, RemoteStore.roundTrip, hs]

/-- Witness of C5: rooting `abc-hello` at `/tmp/myroot` through a mounted store
sends the request to the daemon and leaves no symlink behind locally, where
the local composition of `IndirectRootStore` creates the symlink. -/
theorem MountedSSHStore_addPermRoot_remote_witness :
    (MountedSSHStore.addPermRoot (fun s => s)
        (MountedSSHStore.new ⟨"/nix/var/nix", "/nix/var/log/nix"⟩ "/nix/store" "mounted-ssh"
          "builder" {} 1) "abc-hello" "/tmp/myroot" {}).2.2.roundTrips
      = [("addPermRoot", ["abc-hello", "/tmp/myroot"])]
    ∧ (MountedSSHStore.addPermRoot (fun s => s)
        (MountedSSHStore.new ⟨"/nix/var/nix", "/nix/var/log/nix"⟩ "/nix/store" "mounted-ssh"
          "builder" {} 1) "abc-hello" "/tmp/myroot" {}).2.2.symlinks = []
    ∧ (IndirectRootStore.addPermRoot (fun _ w => w)
        (MountedSSHStore.new ⟨"/nix/var/nix", "/nix/var/log/nix"⟩ "/nix/store" "mounted-ssh"
          "builder" {} 1).toLocalFSStore "abc-hello" "/tmp/myroot" {}).2.symlinks
      = [("/tmp/myroot", "/nix/store/abc-hello")] :=
  ⟨(MountedSSHStore_addPermRoot_remote (fun s => s)
      (MountedSSHStore.new ⟨"/nix/var/nix", "/nix/var/log/nix"⟩ "/nix/store" "mounted-ssh"
        "builder" {} 1) "abc-hello" "/tmp/myroot" {}).2.2.2.2.1,
   (MountedSSHStore_addPermRoot_remote (fun s => s)
      (MountedSSHStore.new ⟨"/nix/var/nix", "/nix/var/log/nix"⟩ "/nix/store" "mounted-ssh"
        "builder" {} 1) "abc-hello" "/tmp/myroot" {}).2.2.2.2.2.1,
   by rfl⟩

/-- C1, at a concrete store: a `MountedSSHStore` for the host `builder` whose
local log directory holds the log of `abc-hello.drv`. `getBuildLogExact` raises
"unsupported" where the `LocalFSStore` implementation finds the log,
`getFSAccessor` hands out the accessor that asks the daemon, and `narFromPath`
does a protocol round-trip. -/
theorem MountedSSHStore_filesystem_operations_go_remote :
    (MountedSSHStore.getBuildLogExact
        (MountedSSHStore.new ⟨"/nix/var/nix", "/nix/var/log/nix"⟩ "/nix/store" "mounted-ssh"
          "builder" {} 1) "abc-hello.drv"
        { files := [("/nix/var/log/nix/drvs/abc-hello.drv", "building")] }).1
      = .error (.unsupported "getBuildLogExact" "mounted-ssh://builder")
    ∧ (LocalFSStore.getBuildLogExact
        (MountedSSHStore.new ⟨"/nix/var/nix", "/nix/var/log/nix"⟩ "/nix/store" "mounted-ssh"
          "builder" {} 1).toLocalFSStore "abc-hello.drv"
        { files := [("/nix/var/log/nix/drvs/abc-hello.drv", "building")] }).1
      = .ok (some "building")
    ∧ MountedSSHStore.getFSAccessor
        (MountedSSHStore.new ⟨"/nix/var/nix", "/nix/var/log/nix"⟩ "/nix/store" "mounted-ssh"
          "builder" {} 1) = .remote
    ∧ LocalFSStore.getFSAccessor
        (MountedSSHStore.new ⟨"/nix/var/nix", "/nix/var/log/nix"⟩ "/nix/store" "mounted-ssh"
          "builder" {} 1).toLocalFSStore = .localFS
    ∧ (MountedSSHStore.narFromPath (fun s => s)
        (MountedSSHStore.new ⟨"/nix/var/nix", "/nix/var/log/nix"⟩ "/nix/store" "mounted-ssh"
          "builder" {} 1) "abc-hello" {}).2.2.roundTrips
      = [("narFromPath", ["abc-hello"])] := by
  refine ⟨by rfl, by rfl, by rfl, by rfl, by rfl⟩

/-- On every `MountedSSHStore`, `getBuildLogExact` raises "unsupported",
whatever the local log directory holds. -/
theorem MountedSSHStore_getBuildLogExact_unsupported (self : MountedSSHStore)
    (path : StorePath) (w : World) :
    MountedSSHStore.getBuildLogExact self path w
      = (.error (.unsupported "getBuildLogExact" ("mounted-ssh://" ++ self.toSSHStore.host)),
          self, w) :=
  rfl

/-- C9: on a connection whose write-side descriptor `sshConn.in_` (the one the
sink `to_` writes to) and read-side descriptor `sshConn.out` (the one the
source `from_` reads from) are two different open descriptors, `closeWrite`
succeeds, closes and gives up the write side only, and leaves the read side
open and every other part of the connection and of the world unchanged. -/
theorem closeWrite_half_close (conn : SSHStore.Connection) (w : World)
    (hto : conn.to_.fd = conn.sshConn.in_.get)
    (hfrom : conn.from_.fd = conn.sshConn.out.get)
    (hin : conn.sshConn.in_.fd ∈ w.openFds)
    (hout : conn.sshConn.out.fd ∈ w.openFds)
    (hne : conn.sshConn.in_.fd ≠ conn.sshConn.out.fd)
    (hown : conn.sshConn.in_.fd ≠ -1) :
    (SSHStore.Connection.closeWrite conn w).1 = .ok ()
      ∧ (SSHStore.Connection.closeWrite conn w).2.1
        = { sshConn := { out := conn.sshConn.out, in_ := { fd := -1 } }
            to_ := conn.to_, from_ := conn.from_ }
      ∧ conn.to_.fd ∉ (SSHStore.Connection.closeWrite conn w).2.2.openFds
      ∧ conn.from_.fd ∈ (SSHStore.Connection.closeWrite conn w).2.2.openFds
      ∧ (∀ fd, fd ≠ conn.sshConn.in_.fd →
          (fd ∈ (SSHStore.Connection.closeWrite conn w).2.2.openFds ↔ fd ∈ w.openFds))
      ∧ (SSHStore.Connection.closeWrite conn w).2.2.spawned = w.spawned
      ∧ (SSHStore.Connection.closeWrite conn w).2.2.masters = w.masters
      ∧ (SSHStore.Connection.closeWrite conn w).2.2.roundTrips = w.roundTrips := by
  have hcw : SSHStore.Connection.closeWrite conn w
      = (.ok (), { sshConn := { out := conn.sshConn.out, in_ := { fd := -1 } }
                   to_ := conn.to_, from_ := conn.from_ },
          { w with openFds := w.openFds.filter (fun x => x ≠ conn.sshConn.in_.fd) }) := by
    simp [SSHStore.Connection.closeWrite, AutoCloseFD.close, World.close, hin, hown]
  rw [hcw]
  refine ⟨rfl, rfl, ?_, ?_, ?_, rfl, rfl, rfl⟩
  · simp [hto, AutoCloseFD.get]
  · simp only [hfrom, AutoCloseFD.get, List.mem_filter, decide_eq_true_eq]
    exact ⟨hout, fun h => hne h.symm⟩
  · intro fd hfd
    simp [List.mem_filter, hfd]

/-- A connection that `openConnection` has just opened has its sink on
`sshConn.in_`, its source on `sshConn.out`, and these are two different open
descriptors. -/
theorem openConnection_descriptors (shellEscape : String → String) (self : SSHStore)
    (w : World) :
    (SSHStore.openConnection shellEscape self w).1.to_.fd
        = (SSHStore.openConnection shellEscape self w).1.sshConn.in_.get
      ∧ (SSHStore.openConnection shellEscape self w).1.from_.fd
        = (SSHStore.openConnection shellEscape self w).1.sshConn.out.get
      ∧ (SSHStore.openConnection shellEscape self w).1.sshConn.in_.fd
        ∈ (SSHStore.openConnection shellEscape self w).2.2.openFds
      ∧ (SSHStore.openConnection shellEscape self w).1.sshConn.out.fd
        ∈ (SSHStore.openConnection shellEscape self w).2.2.openFds
      ∧ (SSHStore.openConnection shellEscape self w).1.sshConn.in_.fd
        ≠ (SSHStore.openConnection shellEscape self w).1.sshConn.out.fd := by
  refine ⟨rfl, rfl, ?_, ?_, ?_⟩ <;> simp [SSHStore.openConnection, SSHMaster.startCommand]

/-- Witness of C9: the first connection of a new store to the host `builder`
gets the descriptors 3 (write side) and 4 (read side); after `closeWrite` the
write side is given up and 4 is still open. -/
theorem closeWrite_half_close_witness :
    (SSHStore.Connection.closeWrite
        (SSHStore.openConnection (fun s => s) (SSHStore.new "ssh-ng" "builder" {} 1) {}).1
        (SSHStore.openConnection (fun s => s) (SSHStore.new "ssh-ng" "builder" {} 1) {}).2.2).1
      = .ok ()
    ∧ (SSHStore.Connection.closeWrite
        (SSHStore.openConnection (fun s => s) (SSHStore.new "ssh-ng" "builder" {} 1) {}).1
        (SSHStore.openConnection (fun s => s) (SSHStore.new "ssh-ng" "builder" {} 1) {}).2.2).2.1
      = { sshConn := { out := { fd := 4 }, in_ := { fd := -1 } }, to_ := { fd := 3 },
          from_ := { fd := 4 } }
    ∧ (3 : Int) ∉ (SSHStore.Connection.closeWrite
        (SSHStore.openConnection (fun s => s) (SSHStore.new "ssh-ng" "builder" {} 1) {}).1
        (SSHStore.openConnection (fun s => s) (SSHStore.new "ssh-ng" "builder" {} 1)
          {}).2.2).2.2.openFds
    ∧ (4 : Int) ∈ (SSHStore.Connection.closeWrite
        (SSHStore.openConnection (fun s => s) (SSHStore.new "ssh-ng" "builder" {} 1) {}).1
        (SSHStore.openConnection (fun s => s) (SSHStore.new "ssh-ng" "builder" {} 1)
          {}).2.2).2.2.openFds :=
  have h := closeWrite_half_close
    (SSHStore.openConnection (fun s => s) (SSHStore.new "ssh-ng" "builder" {} 1) {}).1
    (SSHStore.openConnection (fun s => s) (SSHStore.new "ssh-ng" "builder" {} 1) {}).2.2
    rfl rfl (by decide) (by decide) (by decide) (by decide)
  ⟨h.1, h.2.1, h.2.2.1, h.2.2.2.1⟩

/-- Opening `n` connections on a store whose master is settled (`startMaster`
changes nothing and answers `ctl`) starts no master and spawns `n` commands,
each through `ctl`. -/
theorem openConnections_settled (shellEscape : String → String) (ctl : Option Nat) (n : Nat) :
    ∀ (self : SSHStore) (w : World),
      (∀ w1, self.master.startMaster w1 = (ctl, self.master, w1)) →
      (SSHStore.openConnections shellEscape n self w).1.length = n
        ∧ (SSHStore.openConnections shellEscape n self w).2.1 = self
        ∧ (SSHStore.openConnections shellEscape n self w).2.2.masters = w.masters
        ∧ ∃ added, (SSHStore.openConnections shellEscape n self w).2.2.spawned
              = w.spawned ++ added
            ∧ added.length = n ∧ ∀ c ∈ added, c.controlMaster = ctl := by
  induction n with
  | zero =>
    intro self w _
    exact ⟨rfl, rfl, rfl, [], by simp [SSHStore.openConnections], rfl, by simp⟩
  | succ n ih =>
    intro self w hs
    have hstep : SSHStore.openConnection shellEscape self w
        = ((SSHStore.openConnection shellEscape self w).1, self,
            (SSHStore.openConnection shellEscape self w).2.2) := by
      simp only [SSHStore.openConnection, SSHMaster.startCommand, hs w]
    have hm : (SSHStore.openConnection shellEscape self w).2.2.masters = w.masters := by
      simp only [SSHStore.openConnection, SSHMaster.startCommand, hs w]
    have hsp : ∃ e, (SSHStore.openConnection shellEscape self w).2.2.spawned = w.spawned ++ [e]
        ∧ e.controlMaster = ctl := by
      simp only [SSHStore.openConnection, SSHMaster.startCommand, hs w]
      exact ⟨_, rfl, rfl⟩
    obtain ⟨e, he, hec⟩ := hsp
    obtain ⟨h1, h2, h3, added, h4, h5, h6⟩ :=
      ih self (SSHStore.openConnection shellEscape self w).2.2 hs
    have hunf : SSHStore.openConnections shellEscape (n + 1) self w
        = ((SSHStore.openConnection shellEscape self w).1
              :: (SSHStore.openConnections shellEscape n self
                    (SSHStore.openConnection shellEscape self w).2.2).1,
            (SSHStore.openConnections shellEscape n self
                    (SSHStore.openConnection shellEscape self w).2.2).2.1,
            (SSHStore.openConnections shellEscape n self
                    (SSHStore.openConnection shellEscape self w).2.2).2.2) := by
      conv_lhs => rw [SSHStore.openConnections, hstep]
    rw [hunf]
    refine ⟨by simp [h1], h2, by rw [h3, hm], e :: added, ?_, by simp [h5], ?_⟩
    · simp only [h4, he, List.append_assoc, List.singleton_append]
    · intro c hc
      rcases List.mem_cons.mp hc with rfl | hc
      · exact hec
      · exact h6 c hc

/-- C7: the master of an `SSHStore` is constructed with multiplexing exactly
when the pool capacity exceeds 1. With capacity at most 1, opening connections
starts no master and every command is spawned without one; with capacity above
1, opening one or more connections starts exactly one master, to the store's
host, and every command is spawned through it (and none is started before the
first connection is opened). -/
theorem SSHStore_master_iff_capacity (shellEscape : String → String) (scheme host : String)
    (params : Params) (capacity : Nat) (w : World) (n : Nat) :
    ((SSHStore.new scheme host params capacity).master.useMaster = true ↔ 1 < capacity)
      ∧ (capacity ≤ 1 →
          (SSHStore.openConnections shellEscape n
              (SSHStore.new scheme host params capacity) w).2.2.masters = w.masters
          ∧ ∃ added, (SSHStore.openConnections shellEscape n
                (SSHStore.new scheme host params capacity) w).2.2.spawned = w.spawned ++ added
              ∧ added.length = n ∧ ∀ c ∈ added, c.controlMaster = none)
      ∧ (1 < capacity → 0 < n →
          (SSHStore.openConnections shellEscape n
              (SSHStore.new scheme host params capacity) w).2.2.masters = w.masters ++ [host]
          ∧ ∃ added, (SSHStore.openConnections shellEscape n
                (SSHStore.new scheme host params capacity) w).2.2.spawned = w.spawned ++ added
              ∧ added.length = n ∧ ∀ c ∈ added, c.controlMaster = some w.masters.length)
      ∧ (SSHStore.openConnections shellEscape 0
            (SSHStore.new scheme host params capacity) w).2.2.masters = w.masters := by
  refine ⟨by simp [SSHStore.new, SSHMaster.new], fun hcap => ?_, fun hcap hn => ?_, rfl⟩
  · have hs : ∀ w1, (SSHStore.new scheme host params capacity).master.startMaster w1
        = (none, (SSHStore.new scheme host params capacity).master, w1) := by
      intro w1
      have : ¬ 1 < capacity := by omega
      simp [SSHStore.new, SSHMaster.new, SSHMaster.startMaster, this]
    obtain ⟨-, -, h3, h4⟩ := openConnections_settled shellEscape none n _ w hs
    exact ⟨h3, h4⟩
  · obtain ⟨k, rfl⟩ : ∃ k, n = k + 1 := ⟨n - 1, by omega⟩
    generalize hs0 : SSHStore.new scheme host params capacity = s
    have hum : s.master.useMaster = true := by
      rw [← hs0]; simp [SSHStore.new, SSHMaster.new, hcap]
    have hnone : s.master.sshMaster = none := by rw [← hs0]; rfl
    have hhost : s.master.host = host := by rw [← hs0]; rfl
    have hsm : s.master.startMaster w
        = (some w.masters.length, { s.master with sshMaster := some w.masters.length },
            { w with masters := w.masters ++ [host] }) := by
      simp [SSHMaster.startMaster, hum, hnone, hhost]
    have hstep : SSHStore.openConnection shellEscape s w
        = ((SSHStore.openConnection shellEscape s w).1,
            { s with master := { s.master with sshMaster := some w.masters.length } },
            (SSHStore.openConnection shellEscape s w).2.2) := by
      simp only [SSHStore.openConnection, SSHMaster.startCommand, hsm]
    have hm : (SSHStore.openConnection shellEscape s w).2.2.masters = w.masters ++ [host] := by
      simp only [SSHStore.openConnection, SSHMaster.startCommand, hsm]
    have hsp : ∃ e, (SSHStore.openConnection shellEscape s w).2.2.spawned = w.spawned ++ [e]
        ∧ e.controlMaster = some w.masters.length := by
      simp only [SSHStore.openConnection, SSHMaster.startCommand, hsm]
      exact ⟨_, rfl, rfl⟩
    obtain ⟨e, he, hec⟩ := hsp
    have hs : ∀ w1,
        ({ s with master := { s.master with sshMaster := some w.masters.length } }
            : SSHStore).master.startMaster w1
          = (some w.masters.length,
              ({ s with master := { s.master with sshMaster := some w.masters.length } }
                : SSHStore).master, w1) := by
      intro w1
      simp [SSHMaster.startMaster, hum]
    obtain ⟨-, -, h3, added, h4, h5, h6⟩ :=
      openConnections_settled shellEscape (some w.masters.length) k _
        (SSHStore.openConnection shellEscape s w).2.2 hs
    have hunf : SSHStore.openConnections shellEscape (k + 1) s w
        = ((SSHStore.openConnection shellEscape s w).1
              :: (SSHStore.openConnections shellEscape k
                    { s with master := { s.master with sshMaster := some w.masters.length } }
                    (SSHStore.openConnection shellEscape s w).2.2).1,
            (SSHStore.openConnections shellEscape k
                    { s with master := { s.master with sshMaster := some w.masters.length } }
                    (SSHStore.openConnection shellEscape s w).2.2).2.1,
            (SSHStore.openConnections shellEscape k
                    { s with master := { s.master with sshMaster := some w.masters.length } }
                    (SSHStore.openConnection shellEscape s w).2.2).2.2) := by
      conv_lhs => rw [SSHStore.openConnections, hstep]
    rw [hunf]
    refine ⟨by rw [h3, hm], e :: added, ?_, by simp [h5], ?_⟩
    · simp only [h4, he, List.append_assoc, List.singleton_append]
    · intro c hc
      rcases List.mem_cons.mp hc with rfl | hc
      · exact hec
      · exact h6 c hc

/-- Witness of C7: three connections to `builder`, with capacity 1 (no master,
no control socket) and with capacity 4 (one master, shared by all three). -/
theorem SSHStore_master_iff_capacity_witness :
    ((SSHStore.openConnections (fun s => s) 3 (SSHStore.new "ssh-ng" "builder" {} 1) {}).2.2.masters
        = []
      ∧ (SSHStore.openConnections (fun s => s) 3
          (SSHStore.new "ssh-ng" "builder" {} 1) {}).2.2.spawned.map SpawnedCommand.controlMaster
        = [none, none, none])
    ∧ ((SSHStore.openConnections (fun s => s) 3 (SSHStore.new "ssh-ng" "builder" {} 4) {}).2.2.masters
        = ["builder"]
      ∧ (SSHStore.openConnections (fun s => s) 3
          (SSHStore.new "ssh-ng" "builder" {} 4) {}).2.2.spawned.map SpawnedCommand.controlMaster
        = [some 0, some 0, some 0]) :=
  ⟨⟨((SSHStore_master_iff_capacity (fun s => s) "ssh-ng" "builder" {} 1 {} 3).2.1
        (by decide)).1, by decide⟩,
   ⟨((SSHStore_master_iff_capacity (fun s => s) "ssh-ng" "builder" {} 4 {} 3).2.2.1
        (by decide) (by decide)).1, by decide⟩⟩

end Nix
